import Mathlib

/-!
Verification of the Nexus module parser (Go package `parser`).

The parser is line oriented: the source file is split into lines, and a
cursor walks the line array, dispatching each trimmed line by keyword to
an element parser.  We embed the file contents as a list of lines, each
line being a list of characters (one Go rune per entry; slicing a Go
string at the byte index of an ASCII delimiter coincides with slicing
the rune list at the char index of that delimiter).  File handling
(extension check, reading) is IO and is out of scope; `parse` below
starts from the loaded line list, mirroring `Parser.parse` after
`loadFile`.
-/

namespace Nexus

/-- GoStr models one Go string as its list of runes. -/
abbrev GoStr := List Char

/-- bOpen is the opening brace character, Go constant BlockStart. -/
def bOpen : Char := Char.ofNat 123

/-- bClose is the closing brace character, Go constant BlockEnd. -/
def bClose : Char := Char.ofNat 125

/-- quoteD is the double-quote character. -/
def quoteD : Char := Char.ofNat 34

/-- quoteS is the single-quote character. -/
def quoteS : Char := Char.ofNat 39

/-- goIsSpace mirrors unicode.IsSpace: Latin-1 white space plus the
Unicode White_Space code points, as used by strings.TrimSpace and
strings.Fields. -/
def goIsSpace (c : Char) : Bool :=
  c.toNat == 9 || c.toNat == 10 || c.toNat == 11 || c.toNat == 12 ||
  c.toNat == 13 || c.toNat == 32 || c.toNat == 133 || c.toNat == 160 ||
  c.toNat == 0x1680 || (0x2000 ≤ c.toNat && c.toNat ≤ 0x200A) ||
  c.toNat == 0x2028 || c.toNat == 0x2029 || c.toNat == 0x202F ||
  c.toNat == 0x205F || c.toNat == 0x3000

/-- goTrimSpace mirrors strings.TrimSpace: drop white space from both ends. -/
def goTrimSpace (s : GoStr) : GoStr :=
  ((s.dropWhile goIsSpace).reverse.dropWhile goIsSpace).reverse

/-- goHasPre mirrors strings.HasPrefix. -/
def goHasPre (s pre : GoStr) : Bool := pre.isPrefixOf s

/-- goHasSuf mirrors strings.HasSuffix. -/
def goHasSuf (s suf : GoStr) : Bool := suf.isSuffixOf s

/-- goTrimPre mirrors strings.TrimPrefix. -/
def goTrimPre (s pre : GoStr) : GoStr :=
  if goHasPre s pre then s.drop pre.length else s

/-- goTrimSuf mirrors strings.TrimSuffix. -/
def goTrimSuf (s suf : GoStr) : GoStr :=
  if goHasSuf s suf then s.take (s.length - suf.length) else s

/-- goFieldsAux accumulates the current field (reversed) while scanning. -/
def goFieldsAux : GoStr → GoStr → List GoStr
  | [], cur => if cur.isEmpty then [] else [cur.reverse]
  | c :: rest2, cur =>
    if goIsSpace c then
      if cur.isEmpty then goFieldsAux rest2 []
      else cur.reverse :: goFieldsAux rest2 []
    else goFieldsAux rest2 (c :: cur)

/-- goFields mirrors strings.Fields: split around runs of white space. -/
def goFields (s : GoStr) : List GoStr := goFieldsAux s []

/-- isAsciiLetter matches the regexp character class a-zA-Z. -/
def isAsciiLetter (c : Char) : Bool :=
  (65 ≤ c.toNat && c.toNat ≤ 90) || (97 ≤ c.toNat && c.toNat ≤ 122)

/-- isAsciiDigit matches the regexp character class 0-9. -/
def isAsciiDigit (c : Char) : Bool := 48 ≤ c.toNat && c.toNat ≤ 57

/-- isIdentChar matches the regexp character class a-zA-Z0-9_. -/
def isIdentChar (c : Char) : Bool :=
  isAsciiLetter c || isAsciiDigit c || c == '_'

/-- isValidIdentifier mirrors identifierRegex, anchored both ends:
first char a-zA-Z or underscore, rest a-zA-Z0-9 or underscore. -/
def isValidIdentifier (s : GoStr) : Bool :=
  match s with
  | [] => false
  | c :: cs => (isAsciiLetter c || c == '_') && cs.all isIdentChar

/-- isValidModuleName mirrors moduleNameRegex, anchored both ends:
first char a-zA-Z (no leading underscore), rest a-zA-Z0-9 or underscore. -/
def isValidModuleName (s : GoStr) : Bool :=
  match s with
  | [] => false
  | c :: cs => isAsciiLetter c && cs.all isIdentChar

/-- parseStringValue mirrors Parser.parseStringValue.  When the value is
wrapped in matching double or single quotes it returns value with the
first and last byte sliced off; in every other branch of the Go code
(integer via strconv.Atoi, float via strconv.ParseFloat, the literals
true and false, and the final fallthrough) the Go function returns value
unchanged, so those branches collapse to the identity here. -/
def parseStringValue (value : GoStr) : GoStr :=
  if 2 ≤ value.length ∧
      ((goHasPre value [quoteD] = true ∧ goHasSuf value [quoteD] = true) ∨
       (goHasPre value [quoteS] = true ∧ goHasSuf value [quoteS] = true)) then
    (value.drop 1).take (value.length - 2)
  else value

/-- Property represents one state variable of a module. -/
structure Property where
  name : GoStr
  type : GoStr
  value : GoStr
deriving DecidableEq

/-- View represents one view declaration. -/
structure View where
  name : GoStr
  content : List GoStr
deriving DecidableEq

/-- Parameter represents one action parameter (never produced by the
current grammar). -/
structure Parameter where
  name : GoStr
  type : GoStr
deriving DecidableEq

/-- Action represents one action declaration. -/
structure Action where
  name : GoStr
  parameters : List Parameter
deriving DecidableEq

/-- Module is the parse result: name, state, views, actions, template. -/
structure Module where
  name : GoStr
  state : List Property
  views : List View
  actions : List Action
  template : List GoStr
deriving DecidableEq

/-- ParseError carries the failure position, message and context. -/
structure ParseError where
  line : Nat
  column : Nat
  message : GoStr
  context : GoStr
deriving DecidableEq

instance {ε α : Type} [DecidableEq ε] [DecidableEq α] : DecidableEq (Except ε α) := fun x y =>
  match x, y with
  | .ok a, .ok b => if h : a = b then isTrue (by rw [h]) else isFalse (by simp [h])
  | .error a, .error b => if h : a = b then isTrue (by rw [h]) else isFalse (by simp [h])
  | .ok _, .error _ => isFalse (by simp)
  | .error _, .ok _ => isFalse (by simp)

/-- Parser is the cursor state.  The Go struct keeps the full line array
with an index current; the code only ever reads lines at or after the
index, so we keep the remaining suffix rest together with the 1-based
logical line counter and the column (which the Go code always keeps at 1:
advance resets it and nothing else writes it). -/
structure Parser where
  rest : List GoStr
  line : Nat
  column : Nat
deriving DecidableEq

/-- hasMoreLines mirrors Parser.hasMoreLines. -/
def hasMoreLines (p : Parser) : Bool := !p.rest.isEmpty

/-- currentLine mirrors Parser.currentLine: the line under the cursor,
empty past the end. -/
def currentLine (p : Parser) : GoStr := p.rest.headD []

/-- advance mirrors Parser.advance: move one line forward, bump the line
counter, reset column to 1; no effect past the end. -/
def advance (p : Parser) : Parser :=
  match p.rest with
  | [] => p
  | _ :: rs => Parser.mk rs (p.line + 1) 1

/-- newError mirrors Parser.newError: snapshot the current position. -/
def newError (p : Parser) (msg ctx : GoStr) : ParseError :=
  ParseError.mk p.line p.column msg ctx

/-- msgEmptyFile is the message for an empty input. -/
def msgEmptyFile : GoStr := "file is empty".data

/-- msgExpectedModuleDecl is the message when input ends before the header. -/
def msgExpectedModuleDecl : GoStr := "expected module declaration".data

/-- msgEmptyModuleName is the message for a header with an empty name. -/
def msgEmptyModuleName : GoStr := "empty module name".data

/-- msgInvalidModuleName is the message for an invalid module name. -/
def msgInvalidModuleName : GoStr :=
  "invalid module name: must start with letter and contain only letters, numbers, and underscores".data

/-- msgExpectedModuleHeader is the message for a first line that is not a
module declaration with opening brace. -/
def msgExpectedModuleHeader : GoStr :=
  "expected module declaration with opening brace: \x27module Name \x7b\x27".data

/-- msgUnclosedModule is the message when input ends inside the module body. -/
def msgUnclosedModule : GoStr := "unclosed module block".data

/-- msgMissingColon is the message for a state line without a colon. -/
def msgMissingColon : GoStr := "invalid state declaration: missing colon".data

/-- msgInvalidStateName is the message for an invalid state variable name. -/
def msgInvalidStateName : GoStr := "invalid state variable name".data

/-- msgMissingType is the message for a state line whose type is empty. -/
def msgMissingType : GoStr := "missing type in state declaration".data

/-- msgMissingActionName is the message for an action line without a name. -/
def msgMissingActionName : GoStr := "missing action name".data

/-- msgInvalidActionName is the message for an invalid action name. -/
def msgInvalidActionName : GoStr := "invalid action name".data

/-- msgMissingViewName is the message for a view line without a name. -/
def msgMissingViewName : GoStr := "missing view name".data

/-- msgInvalidViewName is the message for an invalid view name. -/
def msgInvalidViewName : GoStr := "invalid view name".data

/-- msgExpectedBraceAfterTemplate is the message for a template line that
does not end with an opening brace. -/
def msgExpectedBraceAfterTemplate : GoStr :=
  "expected opening brace after template".data

/-- msgUnclosedTemplate is the message when input ends inside a template. -/
def msgUnclosedTemplate : GoStr := "unclosed template block".data

/-- unexpectedTokenMsg is the formatted message of the dispatch default
case, embedding the offending trimmed line. -/
def unexpectedTokenMsg (line : GoStr) : GoStr :=
  "unexpected token - expected \x27state\x27, \x27action\x27, \x27view\x27, or \x27template\x27, got: \x27".data
    ++ line ++ "\x27".data

/-- kwModuleSp is the keyword module followed by one space. -/
def kwModuleSp : GoStr := "module ".data

/-- sufBrace is one space followed by an opening brace. -/
def sufBrace : GoStr := " \x7b".data

/-- kwStateSp is the keyword state followed by one space. -/
def kwStateSp : GoStr := "state ".data

/-- kwActionSp is the keyword action followed by one space. -/
def kwActionSp : GoStr := "action ".data

/-- kwViewSp is the keyword view followed by one space. -/
def kwViewSp : GoStr := "view ".data

/-- kwTemplateBrace is the keyword template, a space, an opening brace. -/
def kwTemplateBrace : GoStr := "template \x7b".data

/-- strBlockStart is the opening brace as a one-char string. -/
def strBlockStart : GoStr := "\x7b".data

/-- strBlockEnd is the closing brace as a one-char string. -/
def strBlockEnd : GoStr := "\x7d".data

/-- strCommentPre is the line comment marker. -/
def strCommentPre : GoStr := "//".data

/-- goIndexChar mirrors strings.Index for a one-character pattern: the
position of the first occurrence, none when absent (Go returns -1).  Go
reports a byte index, but since the pattern is one ASCII byte, slicing
the byte string just before and just after that index coincides with
slicing the rune list at the char index returned here. -/
def goIndexChar (c : Char) : GoStr → Option Nat
  | [] => none
  | x :: xs => if x == c then some 0 else (goIndexChar c xs).map (· + 1)

/-- parseState mirrors Parser.parseState: split the line after the state
keyword at the first colon, validate the name, split the remainder at the
first equals sign into type and value, clean the value, and append a
Property, consuming one line. -/
def parseState (p : Parser) (m : Module) : Except ParseError (Parser × Module) :=
  let line := goTrimSpace (currentLine p)
  let stateLine := goTrimSpace (goTrimPre line kwStateSp)
  match goIndexChar ':' stateLine with
  | none => .error (newError p msgMissingColon line)
  | some colonIndex =>
    let name := goTrimSpace (stateLine.take colonIndex)
    if isValidIdentifier name = false then
      .error (newError p msgInvalidStateName name)
    else
      let remainder := goTrimSpace (stateLine.drop (colonIndex + 1))
      let tv : GoStr × GoStr :=
        match goIndexChar '=' remainder with
        | some equalIndex =>
          (goTrimSpace (remainder.take equalIndex),
           parseStringValue (goTrimSpace (remainder.drop (equalIndex + 1))))
        | none => (remainder, [])
      if tv.1 = [] then .error (newError p msgMissingType line)
      else
        .ok (advance p,
          Module.mk m.name (m.state ++ [Property.mk name tv.1 tv.2])
            m.views m.actions m.template)

/-- parseAction mirrors Parser.parseAction: first whitespace field after
the action keyword is the name; remaining tokens are discarded. -/
def parseAction (p : Parser) (m : Module) : Except ParseError (Parser × Module) :=
  let line := goTrimSpace (currentLine p)
  let actionLine := goTrimSpace (goTrimPre line kwActionSp)
  match goFields actionLine with
  | [] => .error (newError p msgMissingActionName line)
  | actionName :: _ =>
    if isValidIdentifier actionName = false then
      .error (newError p msgInvalidActionName actionName)
    else
      .ok (advance p,
        Module.mk m.name m.state m.views
          (m.actions ++ [Action.mk actionName []]) m.template)

/-- parseView mirrors Parser.parseView: the trimmed remainder after the
view keyword is the name, which must be non-empty and a valid identifier. -/
def parseView (p : Parser) (m : Module) : Except ParseError (Parser × Module) :=
  let line := goTrimSpace (currentLine p)
  let viewName := goTrimSpace (goTrimPre line kwViewSp)
  if viewName = [] then .error (newError p msgMissingViewName line)
  else if isValidIdentifier viewName = false then
    .error (newError p msgInvalidViewName viewName)
  else
    .ok (advance p,
      Module.mk m.name m.state (m.views ++ [View.mk viewName []])
        m.actions m.template)

/-- templateLoop mirrors the brace-counting loop inside
Parser.parseTemplate.  Arguments are the remaining lines, the line
counter, the column, the current depth and the accumulated template
lines; it runs while lines remain and depth is positive, adds the raw
line when the adjusted depth stays positive, and returns the final
cursor data, depth and accumulator. -/
def templateLoop : List GoStr → Nat → Nat → Int → List GoStr →
    List GoStr × Nat × Nat × Int × List GoStr
  | [], ln, col, depth, acc => ([], ln, col, depth, acc)
  | l :: rest2, ln, col, depth, acc =>
    if depth ≤ 0 then (l :: rest2, ln, col, depth, acc)
    else
      let depth2 := depth + (l.count bOpen : Int) - (l.count bClose : Int)
      let acc2 := if 0 < depth2 then acc ++ [l] else acc
      templateLoop rest2 (ln + 1) 1 depth2 acc2

/-- parseTemplate mirrors Parser.parseTemplate: the trimmed opening line
must end with an opening brace; skip it, run the brace-counting loop from
depth 1, fail if the input ends with positive depth, otherwise store the
captured lines as the template. -/
def parseTemplate (p : Parser) (m : Module) : Except ParseError (Parser × Module) :=
  let line := goTrimSpace (currentLine p)
  if goHasSuf line strBlockStart = false then
    .error (newError p msgExpectedBraceAfterTemplate line)
  else
    let pa := advance p
    match templateLoop pa.rest pa.line pa.column 1 [] with
    | (rest2, ln2, col2, depth2, tls) =>
      if 0 < depth2 then
        .error (newError (Parser.mk rest2 ln2 col2) msgUnclosedTemplate [])
      else
        .ok (Parser.mk rest2 ln2 col2,
          Module.mk m.name m.state m.views m.actions tls)

/-- parseModuleElement mirrors Parser.parseModuleElement: skip blank and
comment lines, skip a closing brace (the parent handles depth), dispatch
by keyword, or fail with the unexpected-token error. -/
def parseModuleElement (p : Parser) (m : Module) : Except ParseError (Parser × Module) :=
  let line := goTrimSpace (currentLine p)
  if line = [] ∨ goHasPre line strCommentPre = true then .ok (advance p, m)
  else if line = strBlockEnd then .ok (advance p, m)
  else if goHasPre line kwStateSp = true then parseState p m
  else if goHasPre line kwActionSp = true then parseAction p m
  else if goHasPre line kwViewSp = true then parseView p m
  else if goHasPre line kwTemplateBrace = true then parseTemplate p m
  else .error (newError p (unexpectedTokenMsg line) line)

/-- moduleLoopF mirrors the body loop of Parser.parseModule plus its
final depth check.  The loop runs while lines remain and blockDepth is
positive; a line trimming to the closing brace decrements the depth and,
at depth zero, breaks with the module; otherwise the line goes to
parseModuleElement.  On exit with positive depth the parser reports an
unclosed module block.  The fuel argument only bounds the number of
iterations; parseModule passes the remaining line count, which suffices
because every successful parseModuleElement consumes at least one line
(lemma moduleLoopF_fuel below), and the fuel-zero branch coincides with
the loop-exit branch whenever fuel bounds the remaining lines. -/
def moduleLoopF : Nat → Parser → Int → Module → Except ParseError (Parser × Int × Module)
  | 0, p, blockDepth, m =>
    if 0 < blockDepth then .error (newError p msgUnclosedModule [])
    else .ok (p, blockDepth, m)
  | fuel + 1, p, blockDepth, m =>
    if hasMoreLines p = true ∧ 0 < blockDepth then
      let line := goTrimSpace (currentLine p)
      if line = strBlockEnd ∧ blockDepth - 1 = 0 then .ok (p, blockDepth - 1, m)
      else
        let depth2 := if line = strBlockEnd then blockDepth - 1 else blockDepth
        match parseModuleElement p m with
        | .error e => .error e
        | .ok (p2, m2) => moduleLoopF fuel p2 depth2 m2
    else
      if 0 < blockDepth then .error (newError p msgUnclosedModule [])
      else .ok (p, blockDepth, m)

/-- headerName is the name extraction of Parser.parseModuleDeclaration:
drop the six keyword characters, trim, strip one trailing opening brace,
trim again. -/
def headerName (trimmed : GoStr) : GoStr :=
  goTrimSpace (goTrimSuf (goTrimSpace (trimmed.drop 6)) strBlockStart)

/-- parseModuleDeclaration mirrors Parser.parseModuleDeclaration: the
trimmed first line must start with the module keyword plus space and end
with space plus opening brace; the extracted name must be non-empty and a
valid module name; on success the line is consumed. -/
def parseModuleDeclaration (p : Parser) : Except ParseError (Parser × GoStr) :=
  if hasMoreLines p = false then .error (newError p msgExpectedModuleDecl [])
  else
    let line := currentLine p
    let trimmed := goTrimSpace line
    if goHasPre trimmed kwModuleSp = true ∧ goHasSuf trimmed sufBrace = true then
      let moduleName := headerName trimmed
      if moduleName = [] then .error (newError p msgEmptyModuleName trimmed)
      else if isValidModuleName moduleName = false then
        .error (newError p msgInvalidModuleName moduleName)
      else .ok (advance p, moduleName)
    else .error (newError p msgExpectedModuleHeader trimmed)

/-- parseModule mirrors Parser.parseModule: parse the declaration, then
run the body loop from depth 1 on an empty module. -/
def parseModule (p : Parser) : Except ParseError Module :=
  match parseModuleDeclaration p with
  | .error e => .error e
  | .ok (p1, moduleName) =>
    match moduleLoopF p1.rest.length p1 1 (Module.mk moduleName [] [] [] []) with
    | .error e => .error e
    | .ok (_, _, m2) => .ok m2

/-- parse mirrors Parser.parse after loadFile: fail on an empty line
list, otherwise parse the module starting at line 1, column 1. -/
def parse (lines : List GoStr) : Except ParseError Module :=
  if lines.length = 0 then .error (ParseError.mk 1 1 msgEmptyFile [])
  else parseModule (Parser.mk lines 1 1)

/-! Spec-side definitions, used to compare the code with the wording of
the specification for the refinement-style claims. -/

/-- stateLineOf is the text of the current line after the trimmed state
keyword prefix is removed, as computed inside parseState. -/
def stateLineOf (p : Parser) : GoStr :=
  goTrimSpace (goTrimPre (goTrimSpace (currentLine p)) kwStateSp)

/-- splitFirst is modelled from the spec wording split once on the first
occurrence: the text before the first c and the text after it. -/
def splitFirst (c : Char) : GoStr → Option (GoStr × GoStr)
  | [] => none
  | x :: xs =>
    if x == c then some ([], xs)
    else
      match splitFirst c xs with
      | none => none
      | some lr => some (x :: lr.1, lr.2)

/-- specStateLine is modelled from the spec wording of the state grammar
(claim C4, amended with the identifier validation the code performs):
split the text after the state keyword once on the first colon, failing
with the missing-colon error when absent; the left part, trimmed, is the
name and must be a valid identifier, else the invalid-identifier error;
the trimmed remainder right of the colon is split on the first equals
sign: when present the left part, trimmed, is the type and the right
part, trimmed and passed through parseStringValue, is the value; when
absent the whole remainder is the type and the value is empty; an empty
type is the empty-type error. -/
def specStateLine (body : GoStr) : Except GoStr Property :=
  match splitFirst ':' body with
  | none => .error msgMissingColon
  | some lr =>
    let name := goTrimSpace lr.1
    if isValidIdentifier name = false then .error msgInvalidStateName
    else
      let remainder := goTrimSpace lr.2
      match splitFirst '=' remainder with
      | some tv =>
        let typ := goTrimSpace tv.1
        if typ = [] then .error msgMissingType
        else .ok (Property.mk name typ (parseStringValue (goTrimSpace tv.2)))
      | none =>
        if remainder = [] then .error msgMissingType
        else .ok (Property.mk name remainder [])

/-- lineDelta is the per-line brace balance: opens minus closes. -/
def lineDelta (l : GoStr) : Int := (l.count bOpen : Int) - (l.count bClose : Int)

/-- specRunningDepth is modelled from the spec wording of the template
block: the depth starts at 1 after the opening line and is adjusted per
raw line by opens minus closes; this value is the depth after the first
j body lines. -/
def specRunningDepth (body : List GoStr) (j : Nat) : Int :=
  1 + ((body.take j).map lineDelta).sum

/-- headerOk collects the conditions parseModuleDeclaration checks on the
trimmed first line: module keyword plus space, trailing space plus
opening brace, extracted name non-empty and a valid module name. -/
def headerOk (trimmed : GoStr) : Bool :=
  goHasPre trimmed kwModuleSp && goHasSuf trimmed sufBrace &&
  !(headerName trimmed).isEmpty && isValidModuleName (headerName trimmed)

/-- badIdent captures the claim condition on a declared name: it contains
some character outside a-zA-Z0-9 and underscore, or starts with a digit. -/
def badIdent (s : GoStr) : Bool :=
  s.any (fun c => !isIdentChar c) ||
  (match s with
   | [] => false
   | c :: _ => isAsciiDigit c)

/-- extendP appends extra lines past the end of the remaining input,
leaving the cursor position unchanged. -/
def extendP (p : Parser) (t : List GoStr) : Parser :=
  Parser.mk (p.rest ++ t) p.line p.column

/-! Helper lemmas. -/

/-- splitFirst_eq relates the spec-side split to the index-based slicing
the code performs. -/
lemma splitFirst_eq (c : Char) (s : GoStr) :
    splitFirst c s = (goIndexChar c s).map (fun i => (s.take i, s.drop (i + 1))) := by
  induction s with
  | nil => rfl
  | cons x xs ih =>
    simp only [splitFirst, goIndexChar]
    by_cases hx : (x == c) = true
    · simp [hx]
    · simp only [hx, if_false, Bool.false_eq_true, if_neg, ite_false]
      rw [ih]
      cases h : goIndexChar c xs <;> simp [h]

lemma splitFirst_of_none (c : Char) (s : GoStr) (h : goIndexChar c s = none) :
    splitFirst c s = none := by
  rw [splitFirst_eq, h]; rfl

lemma splitFirst_of_some (c : Char) (s : GoStr) (i : Nat) (h : goIndexChar c s = some i) :
    splitFirst c s = some (s.take i, s.drop (i + 1)) := by
  rw [splitFirst_eq, h]; rfl

/-- parseState when the state line has no colon. -/
lemma parseState_noColon (p : Parser) (m : Module)
    (h : goIndexChar ':' (stateLineOf p) = none) :
    parseState p m = .error (newError p msgMissingColon (goTrimSpace (currentLine p))) := by
  simp only [stateLineOf] at h
  simp only [parseState, h]

/-- parseState when the name left of the colon is not a valid identifier. -/
lemma parseState_badName (p : Parser) (m : Module) (ci : Nat)
    (h : goIndexChar ':' (stateLineOf p) = some ci)
    (hv : isValidIdentifier (goTrimSpace ((stateLineOf p).take ci)) = false) :
    parseState p m =
      .error (newError p msgInvalidStateName (goTrimSpace ((stateLineOf p).take ci))) := by
  unfold stateLineOf at h hv ⊢
  simp only [parseState, h]
  rw [if_pos hv]

/-- parseState when the name is valid and the remainder has an equals sign. -/
lemma parseState_someEq (p : Parser) (m : Module) (ci ei : Nat)
    (h : goIndexChar ':' (stateLineOf p) = some ci)
    (hv : ¬ isValidIdentifier (goTrimSpace ((stateLineOf p).take ci)) = false)
    (he : goIndexChar '=' (goTrimSpace ((stateLineOf p).drop (ci + 1))) = some ei) :
    parseState p m =
      (if goTrimSpace ((goTrimSpace ((stateLineOf p).drop (ci + 1))).take ei) = [] then
        .error (newError p msgMissingType (goTrimSpace (currentLine p)))
      else
        .ok (advance p, Module.mk m.name (m.state ++
          [Property.mk (goTrimSpace ((stateLineOf p).take ci))
            (goTrimSpace ((goTrimSpace ((stateLineOf p).drop (ci + 1))).take ei))
            (parseStringValue (goTrimSpace ((goTrimSpace ((stateLineOf p).drop (ci + 1))).drop (ei + 1))))])
          m.views m.actions m.template)) := by
  unfold stateLineOf at h hv he ⊢
  simp only [parseState, h]
  rw [if_neg hv]
  rw [he]

/-- parseState when the name is valid and the remainder has no equals sign. -/
lemma parseState_noEq (p : Parser) (m : Module) (ci : Nat)
    (h : goIndexChar ':' (stateLineOf p) = some ci)
    (hv : ¬ isValidIdentifier (goTrimSpace ((stateLineOf p).take ci)) = false)
    (he : goIndexChar '=' (goTrimSpace ((stateLineOf p).drop (ci + 1))) = none) :
    parseState p m =
      (if goTrimSpace ((stateLineOf p).drop (ci + 1)) = [] then
        .error (newError p msgMissingType (goTrimSpace (currentLine p)))
      else
        .ok (advance p, Module.mk m.name (m.state ++
          [Property.mk (goTrimSpace ((stateLineOf p).take ci))
            (goTrimSpace ((stateLineOf p).drop (ci + 1))) []])
          m.views m.actions m.template)) := by
  unfold stateLineOf at h hv he ⊢
  simp only [parseState, h]
  rw [if_neg hv]
  rw [he]

lemma specStateLine_noColon (s : GoStr) (h : goIndexChar ':' s = none) :
    specStateLine s = .error msgMissingColon := by
  simp only [specStateLine, splitFirst_of_none ':' s h]

lemma specStateLine_badName (s : GoStr) (ci : Nat)
    (h : goIndexChar ':' s = some ci)
    (hv : isValidIdentifier (goTrimSpace (s.take ci)) = false) :
    specStateLine s = .error msgInvalidStateName := by
  simp only [specStateLine, splitFirst_of_some ':' s ci h]
  rw [if_pos hv]

lemma specStateLine_someEq (s : GoStr) (ci ei : Nat)
    (h : goIndexChar ':' s = some ci)
    (hv : ¬ isValidIdentifier (goTrimSpace (s.take ci)) = false)
    (he : goIndexChar '=' (goTrimSpace (s.drop (ci + 1))) = some ei) :
    specStateLine s =
      (if goTrimSpace ((goTrimSpace (s.drop (ci + 1))).take ei) = [] then
        .error msgMissingType
      else
        .ok (Property.mk (goTrimSpace (s.take ci))
          (goTrimSpace ((goTrimSpace (s.drop (ci + 1))).take ei))
          (parseStringValue (goTrimSpace ((goTrimSpace (s.drop (ci + 1))).drop (ei + 1)))))) := by
  simp only [specStateLine, splitFirst_of_some ':' s ci h]
  rw [if_neg hv]
  rw [splitFirst_of_some '=' (goTrimSpace (s.drop (ci + 1))) ei he]

lemma specStateLine_noEq (s : GoStr) (ci : Nat)
    (h : goIndexChar ':' s = some ci)
    (hv : ¬ isValidIdentifier (goTrimSpace (s.take ci)) = false)
    (he : goIndexChar '=' (goTrimSpace (s.drop (ci + 1))) = none) :
    specStateLine s =
      (if goTrimSpace (s.drop (ci + 1)) = [] then .error msgMissingType
      else
        .ok (Property.mk (goTrimSpace (s.take ci)) (goTrimSpace (s.drop (ci + 1))) [])) := by
  simp only [specStateLine, splitFirst_of_some ':' s ci h]
  rw [if_neg hv]
  rw [splitFirst_of_none '=' (goTrimSpace (s.drop (ci + 1))) he]

/-- parseModuleDeclaration when the trimmed first line lacks the module
keyword prefix or the space-brace suffix. -/
lemma decl_noHeader (p : Parser) (hm : hasMoreLines p = true)
    (h1 : ¬ (goHasPre (goTrimSpace (currentLine p)) kwModuleSp = true ∧
             goHasSuf (goTrimSpace (currentLine p)) sufBrace = true)) :
    parseModuleDeclaration p =
      .error (newError p msgExpectedModuleHeader (goTrimSpace (currentLine p))) := by
  simp only [parseModuleDeclaration, hm, Bool.true_eq_false, if_false]
  rw [if_neg h1]

/-- parseModuleDeclaration when the header shape is right but the
extracted name is empty. -/
lemma decl_emptyName (p : Parser) (hm : hasMoreLines p = true)
    (h1 : goHasPre (goTrimSpace (currentLine p)) kwModuleSp = true ∧
          goHasSuf (goTrimSpace (currentLine p)) sufBrace = true)
    (h2 : headerName (goTrimSpace (currentLine p)) = []) :
    parseModuleDeclaration p =
      .error (newError p msgEmptyModuleName (goTrimSpace (currentLine p))) := by
  simp only [parseModuleDeclaration, hm, Bool.true_eq_false, if_false]
  rw [if_pos h1, if_pos h2]

/-- parseModuleDeclaration when the header shape is right but the
extracted name is not a valid module name. -/
lemma decl_invalidName (p : Parser) (hm : hasMoreLines p = true)
    (h1 : goHasPre (goTrimSpace (currentLine p)) kwModuleSp = true ∧
          goHasSuf (goTrimSpace (currentLine p)) sufBrace = true)
    (h2 : ¬ headerName (goTrimSpace (currentLine p)) = [])
    (hv : isValidModuleName (headerName (goTrimSpace (currentLine p))) = false) :
    parseModuleDeclaration p =
      .error (newError p msgInvalidModuleName (headerName (goTrimSpace (currentLine p)))) := by
  simp only [parseModuleDeclaration, hm, Bool.true_eq_false, if_false]
  rw [if_pos h1, if_neg h2, if_pos hv]

/-- parseModuleDeclaration on a well-formed header. -/
lemma decl_ok (p : Parser) (hm : hasMoreLines p = true)
    (h1 : goHasPre (goTrimSpace (currentLine p)) kwModuleSp = true ∧
          goHasSuf (goTrimSpace (currentLine p)) sufBrace = true)
    (h2 : ¬ headerName (goTrimSpace (currentLine p)) = [])
    (hv : ¬ isValidModuleName (headerName (goTrimSpace (currentLine p))) = false) :
    parseModuleDeclaration p =
      .ok (advance p, headerName (goTrimSpace (currentLine p))) := by
  simp only [parseModuleDeclaration, hm, Bool.true_eq_false, if_false]
  rw [if_pos h1, if_neg h2, if_neg hv]

/-- headerOk unfolds to the four header conditions. -/
lemma headerOk_iff (t : GoStr) :
    headerOk t = true ↔
      (goHasPre t kwModuleSp = true ∧ goHasSuf t sufBrace = true ∧
       ¬ headerName t = [] ∧ isValidModuleName (headerName t) = true) := by
  simp only [headerOk, Bool.and_eq_true, Bool.not_eq_true']
  constructor
  · intro h
    refine ⟨h.1.1.1, h.1.1.2, ?_, h.2⟩
    intro hnil
    have h5 := h.1.2
    rw [hnil] at h5
    exact absurd h5 (by decide)
  · intro h
    obtain ⟨h1, h2, h3, h4⟩ := h
    have h5 : (headerName t).isEmpty = false := by
      cases hh : headerName t with
      | nil => exact absurd hh h3
      | cons a as => rfl
    exact ⟨⟨⟨h1, h2⟩, h5⟩, h4⟩

/-- isValidModuleName rejects the empty string. -/
lemma isValidModuleName_ne_nil (s : GoStr) (h : isValidModuleName s = true) :
    s ≠ [] := by
  intro hs
  rw [hs] at h
  exact absurd h (by decide)

/-- parseState leaves the module name unchanged. -/
lemma parseState_name (p : Parser) (m : Module) (p2 : Parser) (m2 : Module)
    (h : parseState p m = .ok (p2, m2)) : m2.name = m.name := by
  simp only [parseState] at h
  split at h
  · exact absurd h (by simp)
  · split at h
    · exact absurd h (by simp)
    · split at h
      · exact absurd h (by simp)
      · simp only [Except.ok.injEq, Prod.mk.injEq] at h
        rw [← h.2]

/-- parseAction leaves the module name unchanged. -/
lemma parseAction_name (p : Parser) (m : Module) (p2 : Parser) (m2 : Module)
    (h : parseAction p m = .ok (p2, m2)) : m2.name = m.name := by
  simp only [parseAction] at h
  split at h
  · exact absurd h (by simp)
  · split at h
    · exact absurd h (by simp)
    · simp only [Except.ok.injEq, Prod.mk.injEq] at h
      rw [← h.2]

/-- parseView leaves the module name unchanged. -/
lemma parseView_name (p : Parser) (m : Module) (p2 : Parser) (m2 : Module)
    (h : parseView p m = .ok (p2, m2)) : m2.name = m.name := by
  simp only [parseView] at h
  split at h
  · exact absurd h (by simp)
  · split at h
    · exact absurd h (by simp)
    · simp only [Except.ok.injEq, Prod.mk.injEq] at h
      rw [← h.2]

/-- parseTemplate leaves the module name unchanged. -/
lemma parseTemplate_name (p : Parser) (m : Module) (p2 : Parser) (m2 : Module)
    (h : parseTemplate p m = .ok (p2, m2)) : m2.name = m.name := by
  simp only [parseTemplate] at h
  split at h
  · exact absurd h (by simp)
  · split at h
    · exact absurd h (by simp)
    · simp only [Except.ok.injEq, Prod.mk.injEq] at h
      rw [← h.2]

/-- parseModuleElement leaves the module name unchanged. -/
lemma parseModuleElement_name (p : Parser) (m : Module) (p2 : Parser) (m2 : Module)
    (h : parseModuleElement p m = .ok (p2, m2)) : m2.name = m.name := by
  simp only [parseModuleElement] at h
  split at h
  · simp only [Except.ok.injEq, Prod.mk.injEq] at h
    rw [← h.2]
  · split at h
    · simp only [Except.ok.injEq, Prod.mk.injEq] at h
      rw [← h.2]
    · split at h
      · exact parseState_name p m p2 m2 h
      · split at h
        · exact parseAction_name p m p2 m2 h
        · split at h
          · exact parseView_name p m p2 m2 h
          · split at h
            · exact parseTemplate_name p m p2 m2 h
            · exact absurd h (by simp)

/-- moduleLoopF leaves the module name unchanged on success. -/
lemma moduleLoopF_name :
    ∀ (fuel : Nat) (p : Parser) (d : Int) (m : Module) (p2 : Parser)
      (d2 : Int) (m2 : Module),
      moduleLoopF fuel p d m = .ok (p2, d2, m2) → m2.name = m.name := by
  intro fuel
  induction fuel with
  | zero =>
    intro p d m p2 d2 m2 h
    simp only [moduleLoopF] at h
    split at h
    · exact absurd h (by simp)
    · simp only [Except.ok.injEq, Prod.mk.injEq] at h
      rw [← h.2.2]
  | succ n ih =>
    intro p d m p2 d2 m2 h
    simp only [moduleLoopF] at h
    split at h
    · split at h
      · simp only [Except.ok.injEq, Prod.mk.injEq] at h
        rw [← h.2.2]
      · split at h
        · exact absurd h (by simp)
        · rename_i p3m3 heq
          exact (ih _ _ _ _ _ _ h).trans (parseModuleElement_name _ _ _ _ heq)
    · split at h
      · exact absurd h (by simp)
      · simp only [Except.ok.injEq, Prod.mk.injEq] at h
        rw [← h.2.2]

/-! Claim theorems. -/

/-- C1: on the five-line input of scenario 1, parse returns exactly the
Module named App with the single state Property count of type Int and
value 0, the single action login with no parameters, the single view
Home with no content, and an empty template. -/
theorem c1_scenario_parse :
    parse ["module App \x7b".data, "state count: Int = 0".data,
           "action login".data, "view Home".data, "\x7d".data] =
      .ok (Module.mk "App".data
        [Property.mk "count".data "Int".data "0".data]
        [View.mk "Home".data []]
        [Action.mk "login".data []]
        []) := by
  decide

/-- C6: parseStringValue strips exactly one layer of matching double or
single quotes, removing just the first and last character with the inner
text kept verbatim, and is the identity on every other string. -/
theorem c6_normalize_value (raw : GoStr) :
    (2 ≤ raw.length →
      ((goHasPre raw [quoteD] = true ∧ goHasSuf raw [quoteD] = true) ∨
       (goHasPre raw [quoteS] = true ∧ goHasSuf raw [quoteS] = true)) →
      parseStringValue raw = (raw.drop 1).dropLast) ∧
    (¬ (2 ≤ raw.length ∧
        ((goHasPre raw [quoteD] = true ∧ goHasSuf raw [quoteD] = true) ∨
         (goHasPre raw [quoteS] = true ∧ goHasSuf raw [quoteS] = true))) →
      parseStringValue raw = raw) := by
  constructor
  · intro hlen hq
    rw [parseStringValue, if_pos ⟨hlen, hq⟩, List.dropLast_eq_take,
      List.length_drop, Nat.sub_sub]
  · intro hn
    rw [parseStringValue, if_neg hn]

/-- Witness for C6 at concrete inputs: a double-quoted value is stripped
of its outer quotes, and a plain integer literal is left unchanged. -/
theorem c6_normalize_value_witness :
    parseStringValue "\x22hi\x22".data = ("\x22hi\x22".data.drop 1).dropLast ∧
    parseStringValue "42".data = "42".data :=
  ⟨(c6_normalize_value "\x22hi\x22".data).1 (by decide) (by decide),
   (c6_normalize_value "42".data).2 (by decide)⟩

/-- C9: parse is a deterministic function of the input line sequence;
identical line sequences give identical results (Module or error). -/
theorem c9_deterministic (l1 l2 : List GoStr) (h : l1 = l2) :
    parse l1 = parse l2 := by
  rw [h]

/-- Witness for C9 at a concrete input. -/
theorem c9_deterministic_witness :
    parse ["module D \x7b".data, "\x7d".data] =
      parse ["module D \x7b".data, "\x7d".data] :=
  c9_deterministic ["module D \x7b".data, "\x7d".data]
    ["module D \x7b".data, "\x7d".data] rfl

/-- C7: whenever the body loop finds the input exhausted while the block
depth is still positive it fails with the unclosed-module-block error,
and in particular the input consisting of the single line module X
followed by an opening brace and nothing else yields that error at
line 2. -/
theorem c7_unclosed_block :
    (∀ (fuel : Nat) (p : Parser) (blockDepth : Int) (m : Module),
       hasMoreLines p = false → 0 < blockDepth →
       moduleLoopF fuel p blockDepth m =
         .error (newError p msgUnclosedModule [])) ∧
    parse ["module X \x7b".data] =
      .error (ParseError.mk 2 1 msgUnclosedModule []) := by
  constructor
  · intro fuel p d m h hd
    cases fuel with
    | zero => simp [moduleLoopF, hd]
    | succ n => simp [moduleLoopF, h, hd]
  · decide

/-- Witness for C7: the loop state reached after the header of module X
has no lines left and depth 1, so the loop reports the unclosed block. -/
theorem c7_unclosed_block_witness :
    moduleLoopF 3 (Parser.mk [] 2 1) 1 (Module.mk "X".data [] [] [] []) =
      .error (newError (Parser.mk [] 2 1) msgUnclosedModule []) :=
  c7_unclosed_block.1 3 (Parser.mk [] 2 1) 1 (Module.mk "X".data [] [] [] [])
    (by decide) (by decide)

/-- C8 counterexample: on a body line consisting of the bare keyword
action, parse fails with the unexpected-token error of the dispatcher,
whose message differs from the missing-action-name message the claim
requires. -/
theorem c8_counterexample :
    parse ["module A \x7b".data, "action".data, "\x7d".data] =
      .error (ParseError.mk 2 1 (unexpectedTokenMsg "action".data)
        "action".data) ∧
    unexpectedTokenMsg "action".data ≠ msgMissingActionName := by
  decide

/-- C8 amended: a module-body line that trims to the bare keyword action
lacks the action-keyword-plus-space prefix required by the dispatcher, so
the body loop fails with the unexpected-token error (and never reaches
the missing-action-name branch of parseAction). -/
theorem c8_bare_action_unexpected (fuel : Nat) (p : Parser) (m : Module)
    (hmore : hasMoreLines p = true)
    (hline : goTrimSpace (currentLine p) = "action".data) :
    moduleLoopF (fuel + 1) p 1 m =
      .error (newError p (unexpectedTokenMsg "action".data) "action".data) := by
  have h1 : parseModuleElement p m =
      .error (newError p (unexpectedTokenMsg "action".data) "action".data) := by
    simp only [parseModuleElement, hline]
    rw [if_neg (by decide), if_neg (by decide), if_neg (by decide),
      if_neg (by decide), if_neg (by decide), if_neg (by decide)]
  simp only [moduleLoopF, hmore, true_and]
  rw [if_pos (by norm_num), hline, if_neg (by decide), h1]

/-- Witness for C8 amended at the concrete body line action. -/
theorem c8_bare_action_unexpected_witness :
    moduleLoopF 2 (Parser.mk ["action".data, "\x7d".data] 2 1) 1
        (Module.mk "A".data [] [] [] []) =
      .error (newError (Parser.mk ["action".data, "\x7d".data] 2 1)
        (unexpectedTokenMsg "action".data) "action".data) :=
  c8_bare_action_unexpected 1 (Parser.mk ["action".data, "\x7d".data] 2 1)
    (Module.mk "A".data [] [] [] []) (by decide) (by decide)

/-- C4 counterexample: the claim as stated makes no provision for the
identifier validation of the state name, so on the line state 1x: Int,
whose name part trims to 1x and whose type Int is non-empty, it requires
the Property to be appended and the parse to go on; the code instead
fails with the invalid-state-variable-name error. -/
theorem c4_counterexample :
    parse ["module A \x7b".data, "state 1x: Int".data, "\x7d".data] =
      .error (ParseError.mk 2 1 msgInvalidStateName "1x".data) := by
  decide

/-- C4 amended: on a body line starting with the state keyword,
parseState agrees with the spec-worded pipeline specStateLine, amended
only by the identifier validation of the name: when the pipeline yields a
Property, parseState appends exactly that Property and consumes exactly
one line; when the pipeline yields a missing-colon, invalid-identifier or
empty-type error, parseState fails at the current position with that
message. -/
theorem c4_state_pipeline (p : Parser) (m : Module)
    (hmore : hasMoreLines p = true)
    (hpre : goHasPre (goTrimSpace (currentLine p)) kwStateSp = true) :
    (∀ prop, specStateLine (stateLineOf p) = .ok prop →
       parseState p m = .ok (advance p,
         Module.mk m.name (m.state ++ [prop]) m.views m.actions m.template)) ∧
    (∀ msg, specStateLine (stateLineOf p) = .error msg →
       ∃ e, parseState p m = .error e ∧ e.message = msg ∧
         e.line = p.line ∧ e.column = p.column) := by
  cases hci : goIndexChar ':' (stateLineOf p) with
  | none =>
    rw [specStateLine_noColon _ hci]
    refine ⟨(fun prop h => nomatch h), fun msg h => ?_⟩
    cases h
    exact ⟨newError p msgMissingColon (goTrimSpace (currentLine p)),
      parseState_noColon p m hci, rfl, rfl, rfl⟩
  | some ci =>
    by_cases hv : isValidIdentifier (goTrimSpace ((stateLineOf p).take ci)) = false
    · rw [specStateLine_badName _ ci hci hv]
      refine ⟨(fun prop h => nomatch h), fun msg h => ?_⟩
      cases h
      exact ⟨newError p msgInvalidStateName (goTrimSpace ((stateLineOf p).take ci)),
        parseState_badName p m ci hci hv, rfl, rfl, rfl⟩
    · cases he : goIndexChar '=' (goTrimSpace ((stateLineOf p).drop (ci + 1))) with
      | some ei =>
        rw [specStateLine_someEq _ ci ei hci hv he]
        have hps := parseState_someEq p m ci ei hci hv he
        by_cases ht :
            goTrimSpace ((goTrimSpace ((stateLineOf p).drop (ci + 1))).take ei) = []
        · rw [if_pos ht]
          rw [if_pos ht] at hps
          refine ⟨(fun prop h => nomatch h), fun msg h => ?_⟩
          cases h
          exact ⟨newError p msgMissingType (goTrimSpace (currentLine p)),
            hps, rfl, rfl, rfl⟩
        · rw [if_neg ht]
          rw [if_neg ht] at hps
          refine ⟨fun prop h => ?_, (fun msg h => nomatch h)⟩
          cases h
          exact hps
      | none =>
        rw [specStateLine_noEq _ ci hci hv he]
        have hps := parseState_noEq p m ci hci hv he
        by_cases ht : goTrimSpace ((stateLineOf p).drop (ci + 1)) = []
        · rw [if_pos ht]
          rw [if_pos ht] at hps
          refine ⟨(fun prop h => nomatch h), fun msg h => ?_⟩
          cases h
          exact ⟨newError p msgMissingType (goTrimSpace (currentLine p)),
            hps, rfl, rfl, rfl⟩
        · rw [if_neg ht]
          rw [if_neg ht] at hps
          refine ⟨fun prop h => ?_, (fun msg h => nomatch h)⟩
          cases h
          exact hps

/-- Witness for C4 amended: the line state count: Int = 0 goes through
the ok side of the pipeline and appends the count Property. -/
theorem c4_state_pipeline_witness :
    parseState (Parser.mk ["state count: Int = 0".data, "\x7d".data] 2 1)
        (Module.mk "A".data [] [] [] []) =
      .ok (advance (Parser.mk ["state count: Int = 0".data, "\x7d".data] 2 1),
        Module.mk "A".data [Property.mk "count".data "Int".data "0".data] [] [] []) :=
  (c4_state_pipeline (Parser.mk ["state count: Int = 0".data, "\x7d".data] 2 1)
      (Module.mk "A".data [] [] [] []) (by decide) (by decide)).1
    (Property.mk "count".data "Int".data "0".data) (by decide)


lemma bne_false (b : Bool) (h : ¬ b = false) : b = true := by
  cases b
  · exact absurd rfl h
  · rfl

set_option maxHeartbeats 1600000 in
/-- C3: parsing succeeds only if the trimmed first line has the form of a
module declaration (the module keyword plus a space, a trailing opening
brace preceded by a space, and a non-empty extracted name matching the
module-name grammar, which starts with a letter and continues with
letters, digits or underscores); in every returned Module the name field
is that extracted name, non-empty and valid; and any first line that is
blank, lacks the keyword, lacks the trailing space-brace, or carries an
empty or invalid name makes parse fail at line 1 with one of the
malformed-header messages. -/
theorem c3_header_validation (lines : List GoStr) :
    (∀ m, parse lines = .ok m →
       headerOk (goTrimSpace (lines.headD [])) = true ∧
       m.name = headerName (goTrimSpace (lines.headD [])) ∧
       m.name ≠ [] ∧ isValidModuleName m.name = true) ∧
    (lines ≠ [] → headerOk (goTrimSpace (lines.headD [])) = false →
       ∃ e, parse lines = .error e ∧ e.line = 1 ∧ e.column = 1 ∧
         (e.message = msgExpectedModuleHeader ∨ e.message = msgEmptyModuleName ∨
          e.message = msgInvalidModuleName)) := by
  by_cases hnil : lines = []
  · constructor
    · intro m hok
      rw [hnil] at hok
      simp [parse] at hok
    · intro hne
      exact absurd hnil hne
  · have hlen : ¬ lines.length = 0 := fun h => hnil (List.length_eq_zero.mp h)
    have hm : hasMoreLines (Parser.mk lines 1 1) = true := by
      cases lines with
      | nil => exact absurd rfl hnil
      | cons a as => rfl
    have hcl : currentLine (Parser.mk lines 1 1) = lines.headD [] := rfl
    constructor
    · intro m hok
      simp only [parse, if_neg hlen, parseModule] at hok
      by_cases h1 : goHasPre (goTrimSpace (currentLine (Parser.mk lines 1 1))) kwModuleSp = true ∧
          goHasSuf (goTrimSpace (currentLine (Parser.mk lines 1 1))) sufBrace = true
      · by_cases h2 : headerName (goTrimSpace (currentLine (Parser.mk lines 1 1))) = []
        · simp only [decl_emptyName _ hm h1 h2] at hok
          exact absurd hok (by simp)
        · by_cases hv3 : isValidModuleName (headerName (goTrimSpace (currentLine (Parser.mk lines 1 1)))) = false
          · simp only [decl_invalidName _ hm h1 h2 hv3] at hok
            exact absurd hok (by simp)
          · simp only [decl_ok _ hm h1 h2 hv3] at hok
            cases hml : moduleLoopF ((advance (Parser.mk lines 1 1)).rest.length)
                (advance (Parser.mk lines 1 1)) 1
                (Module.mk (headerName (goTrimSpace (currentLine (Parser.mk lines 1 1)))) [] [] [] []) with
            | error e =>
              simp only [hml] at hok
              exact absurd hok (by simp)
            | ok r =>
              obtain ⟨pp, dd, mm⟩ := r
              simp only [hml] at hok
              simp only [Except.ok.injEq] at hok
              have hname : m.name = headerName (goTrimSpace (lines.headD [])) := by
                rw [← hok, ← hcl]
                exact moduleLoopF_name _ _ _ _ _ _ _ hml
              have hvt : isValidModuleName m.name = true := by
                rw [hname, ← hcl]
                exact bne_false _ hv3
              rw [hcl] at h1 h2
              exact ⟨(headerOk_iff _).mpr ⟨h1.1, h1.2, h2, by rw [← hname]; exact hvt⟩,
                hname, isValidModuleName_ne_nil _ hvt, hvt⟩
      · simp only [decl_noHeader _ hm h1] at hok
        exact absurd hok (by simp)
    · intro hne hbad
      simp only [parse, if_neg hlen, parseModule]
      by_cases h1 : goHasPre (goTrimSpace (currentLine (Parser.mk lines 1 1))) kwModuleSp = true ∧
          goHasSuf (goTrimSpace (currentLine (Parser.mk lines 1 1))) sufBrace = true
      · by_cases h2 : headerName (goTrimSpace (currentLine (Parser.mk lines 1 1))) = []
        · rw [decl_emptyName _ hm h1 h2]
          exact ⟨_, rfl, rfl, rfl, Or.inr (Or.inl rfl)⟩
        · by_cases hv3 : isValidModuleName (headerName (goTrimSpace (currentLine (Parser.mk lines 1 1)))) = false
          · rw [decl_invalidName _ hm h1 h2 hv3]
            exact ⟨_, rfl, rfl, rfl, Or.inr (Or.inr rfl)⟩
          · rw [hcl] at h1 h2 hv3
            have hgood : headerOk (goTrimSpace (lines.headD [])) = true :=
              (headerOk_iff _).mpr ⟨h1.1, h1.2, h2, bne_false _ hv3⟩
            rw [hbad] at hgood
            exact absurd hgood (by decide)
      · rw [decl_noHeader _ hm h1]
        exact ⟨_, rfl, rfl, rfl, Or.inl rfl⟩

/-- Witness for C3: a valid header passes and yields the name App, and a
first line without the module keyword fails with a malformed-header
message. -/
theorem c3_header_validation_witness :
    (headerOk (goTrimSpace ((["module App \x7b".data, "\x7d".data]).headD [])) = true ∧
     (Module.mk "App".data [] [] [] []).name =
       headerName (goTrimSpace ((["module App \x7b".data, "\x7d".data]).headD [])) ∧
     (Module.mk "App".data [] [] [] []).name ≠ [] ∧
     isValidModuleName (Module.mk "App".data [] [] [] []).name = true) ∧
    (∃ e, parse ["state x: Int".data] = .error e ∧ e.line = 1 ∧ e.column = 1 ∧
       (e.message = msgExpectedModuleHeader ∨ e.message = msgEmptyModuleName ∨
        e.message = msgInvalidModuleName)) :=
  ⟨(c3_header_validation ["module App \x7b".data, "\x7d".data]).1
     (Module.mk "App".data [] [] [] []) (by decide),
   (c3_header_validation ["state x: Int".data]).2 (by decide) (by decide)⟩


lemma pre_disjoint (s a b : GoStr) (ha : goHasPre s a = true)
    (hlen : b.length ≤ a.length) (hnb : ¬ b <+: a) : goHasPre s b = false := by
  by_contra hb
  have hb2 : goHasPre s b = true := bne_false _ hb
  exact hnb (List.prefix_of_prefix_length_le
    (List.isPrefixOf_iff_prefix.mp hb2) (List.isPrefixOf_iff_prefix.mp ha) hlen)

lemma pre_disjoint2 (s a b : GoStr) (ha : goHasPre s a = true)
    (hlen : a.length ≤ b.length) (hnab : ¬ a <+: b) : goHasPre s b = false := by
  by_contra hb
  have hb2 : goHasPre s b = true := bne_false _ hb
  exact hnab (List.prefix_of_prefix_length_le
    (List.isPrefixOf_iff_prefix.mp ha) (List.isPrefixOf_iff_prefix.mp hb2) hlen)

lemma dispatch_state (p : Parser) (m : Module)
    (h : goHasPre (goTrimSpace (currentLine p)) kwStateSp = true) :
    parseModuleElement p m = parseState p m := by
  have hne : ¬ (goTrimSpace (currentLine p) = [] ∨
      goHasPre (goTrimSpace (currentLine p)) strCommentPre = true) := by
    rintro (hemp | hcom)
    · rw [hemp] at h
      exact absurd h (by decide)
    · have hfa := pre_disjoint (goTrimSpace (currentLine p)) kwStateSp strCommentPre
        h (by decide) (by decide)
      rw [hcom] at hfa
      exact absurd hfa (by decide)
  have hbe : ¬ goTrimSpace (currentLine p) = strBlockEnd := by
    intro hb
    rw [hb] at h
    exact absurd h (by decide)
  simp only [parseModuleElement]
  rw [if_neg hne, if_neg hbe, if_pos h]

lemma dispatch_action (p : Parser) (m : Module)
    (h : goHasPre (goTrimSpace (currentLine p)) kwActionSp = true) :
    parseModuleElement p m = parseAction p m := by
  have hne : ¬ (goTrimSpace (currentLine p) = [] ∨
      goHasPre (goTrimSpace (currentLine p)) strCommentPre = true) := by
    rintro (hemp | hcom)
    · rw [hemp] at h
      exact absurd h (by decide)
    · have hfa := pre_disjoint (goTrimSpace (currentLine p)) kwActionSp strCommentPre
        h (by decide) (by decide)
      rw [hcom] at hfa
      exact absurd hfa (by decide)
  have hbe : ¬ goTrimSpace (currentLine p) = strBlockEnd := by
    intro hb
    rw [hb] at h
    exact absurd h (by decide)
  have hst : goHasPre (goTrimSpace (currentLine p)) kwStateSp = false :=
    pre_disjoint (goTrimSpace (currentLine p)) kwActionSp kwStateSp h (by decide) (by decide)
  simp only [parseModuleElement]
  rw [if_neg hne, if_neg hbe, if_neg (by simp [hst]), if_pos h]

lemma dispatch_view (p : Parser) (m : Module)
    (h : goHasPre (goTrimSpace (currentLine p)) kwViewSp = true) :
    parseModuleElement p m = parseView p m := by
  have hne : ¬ (goTrimSpace (currentLine p) = [] ∨
      goHasPre (goTrimSpace (currentLine p)) strCommentPre = true) := by
    rintro (hemp | hcom)
    · rw [hemp] at h
      exact absurd h (by decide)
    · have hfa := pre_disjoint (goTrimSpace (currentLine p)) kwViewSp strCommentPre
        h (by decide) (by decide)
      rw [hcom] at hfa
      exact absurd hfa (by decide)
  have hbe : ¬ goTrimSpace (currentLine p) = strBlockEnd := by
    intro hb
    rw [hb] at h
    exact absurd h (by decide)
  have hst : goHasPre (goTrimSpace (currentLine p)) kwStateSp = false :=
    pre_disjoint2 (goTrimSpace (currentLine p)) kwViewSp kwStateSp h (by decide) (by decide)
  have hac : goHasPre (goTrimSpace (currentLine p)) kwActionSp = false :=
    pre_disjoint2 (goTrimSpace (currentLine p)) kwViewSp kwActionSp h (by decide) (by decide)
  simp only [parseModuleElement]
  rw [if_neg hne, if_neg hbe, if_neg (by simp [hst]), if_neg (by simp [hac]), if_pos h]

lemma moduleLoopF_step_error (fuel : Nat) (p : Parser) (d : Int) (m : Module)
    (e : ParseError) (hmore : hasMoreLines p = true) (hd : 0 < d)
    (hne : ¬ goTrimSpace (currentLine p) = strBlockEnd)
    (herr : parseModuleElement p m = .error e) :
    moduleLoopF (fuel + 1) p d m = .error e := by
  simp only [moduleLoopF]
  rw [if_pos ⟨hmore, hd⟩, if_neg (fun hc => hne hc.1), herr]


lemma identChar_of_head (c : Char) (h : (isAsciiLetter c || c == '_') = true) :
    isIdentChar c = true := by
  simp only [isIdentChar, Bool.or_eq_true] at h ⊢
  rcases h with h1 | h1
  · exact Or.inl (Or.inl h1)
  · exact Or.inr h1

lemma letter_not_digit (c : Char) (h : (isAsciiLetter c || c == '_') = true) :
    isAsciiDigit c = false := by
  rw [Bool.eq_false_iff]
  intro hd
  simp only [isAsciiDigit, Bool.and_eq_true, decide_eq_true_eq] at hd
  simp only [Bool.or_eq_true] at h
  rcases h with h1 | h1
  · simp only [isAsciiLetter, Bool.or_eq_true, Bool.and_eq_true, decide_eq_true_eq] at h1
    omega
  · have hc : c = '_' := beq_iff_eq.mp h1
    subst hc
    exact absurd hd (by decide)

lemma valid_not_bad (s : GoStr) (h : isValidIdentifier s = true) : badIdent s = false := by
  cases s with
  | nil => rfl
  | cons c cs =>
    simp only [isValidIdentifier, Bool.and_eq_true] at h
    obtain ⟨h1, h2⟩ := h
    simp only [badIdent]
    have hB : isAsciiDigit c = false := letter_not_digit c h1
    have hA : (c :: cs).any (fun x => !isIdentChar x) = false := by
      rw [Bool.eq_false_iff]
      intro hany
      rw [List.any_eq_true] at hany
      obtain ⟨x, hx, hbad⟩ := hany
      rw [Bool.not_eq_true'] at hbad
      rcases List.mem_cons.mp hx with hxc | hxs
      · rw [hxc] at hbad
        rw [identChar_of_head c h1] at hbad
        exact absurd hbad (by decide)
      · rw [List.all_eq_true] at h2
        rw [h2 x hxs] at hbad
        exact absurd hbad (by decide)
    rw [hA, hB]
    rfl

lemma badIdent_invalid (s : GoStr) (h : badIdent s = true) : isValidIdentifier s = false := by
  by_contra hv
  have hvt := bne_false _ hv
  rw [valid_not_bad s hvt] at h
  exact absurd h (by decide)

lemma badIdent_ne_nil (s : GoStr) (h : badIdent s = true) : s ≠ [] := by
  intro hs
  rw [hs] at h
  exact absurd h (by decide)

/-- C5: for every state, action or view body line whose declared name
contains a character outside a-zA-Z0-9 and underscore, or starts with a
digit, the body loop fails with the corresponding invalid-identifier
error and no Module is produced.  The state name is the trimmed text
left of the first colon, the action name is the first whitespace field
after the keyword, and the view name is the trimmed remainder after the
keyword. -/
theorem c5_invalid_identifier :
    (∀ (fuel : Nat) (p : Parser) (m : Module) (ci : Nat),
       hasMoreLines p = true →
       goHasPre (goTrimSpace (currentLine p)) kwStateSp = true →
       goIndexChar ':' (stateLineOf p) = some ci →
       badIdent (goTrimSpace ((stateLineOf p).take ci)) = true →
       moduleLoopF (fuel + 1) p 1 m =
         .error (newError p msgInvalidStateName
           (goTrimSpace ((stateLineOf p).take ci)))) ∧
    (∀ (fuel : Nat) (p : Parser) (m : Module) (nm : GoStr) (rest2 : List GoStr),
       hasMoreLines p = true →
       goHasPre (goTrimSpace (currentLine p)) kwActionSp = true →
       goFields (goTrimSpace (goTrimPre (goTrimSpace (currentLine p)) kwActionSp)) =
         nm :: rest2 →
       badIdent nm = true →
       moduleLoopF (fuel + 1) p 1 m = .error (newError p msgInvalidActionName nm)) ∧
    (∀ (fuel : Nat) (p : Parser) (m : Module),
       hasMoreLines p = true →
       goHasPre (goTrimSpace (currentLine p)) kwViewSp = true →
       badIdent (goTrimSpace (goTrimPre (goTrimSpace (currentLine p)) kwViewSp)) = true →
       moduleLoopF (fuel + 1) p 1 m =
         .error (newError p msgInvalidViewName
           (goTrimSpace (goTrimPre (goTrimSpace (currentLine p)) kwViewSp)))) := by
  refine ⟨?_, ?_, ?_⟩
  · intro fuel p m ci hmore hpre hci hbad
    have hv := badIdent_invalid _ hbad
    have helem : parseModuleElement p m =
        .error (newError p msgInvalidStateName (goTrimSpace ((stateLineOf p).take ci))) :=
      (dispatch_state p m hpre).trans (parseState_badName p m ci hci hv)
    have hne : ¬ goTrimSpace (currentLine p) = strBlockEnd := by
      intro hb
      rw [hb] at hpre
      exact absurd hpre (by decide)
    exact moduleLoopF_step_error fuel p 1 m _ hmore (by norm_num) hne helem
  · intro fuel p m nm rest2 hmore hpre hf hbad
    have hv := badIdent_invalid _ hbad
    have helem : parseModuleElement p m = .error (newError p msgInvalidActionName nm) := by
      rw [dispatch_action p m hpre]
      simp only [parseAction, hf]
      rw [if_pos hv]
    have hne : ¬ goTrimSpace (currentLine p) = strBlockEnd := by
      intro hb
      rw [hb] at hpre
      exact absurd hpre (by decide)
    exact moduleLoopF_step_error fuel p 1 m _ hmore (by norm_num) hne helem
  · intro fuel p m hmore hpre hbad
    have hv := badIdent_invalid _ hbad
    have hnm := badIdent_ne_nil _ hbad
    have helem : parseModuleElement p m =
        .error (newError p msgInvalidViewName
          (goTrimSpace (goTrimPre (goTrimSpace (currentLine p)) kwViewSp))) := by
      rw [dispatch_view p m hpre]
      simp only [parseView]
      rw [if_neg hnm, if_pos hv]
    have hne : ¬ goTrimSpace (currentLine p) = strBlockEnd := by
      intro hb
      rw [hb] at hpre
      exact absurd hpre (by decide)
    exact moduleLoopF_step_error fuel p 1 m _ hmore (by norm_num) hne helem

/-- Witness for C5: digit-led state and action names and a view name
with a dash each produce the matching invalid-name error. -/
theorem c5_invalid_identifier_witness :
    moduleLoopF 1 (Parser.mk ["state 9x: Int".data] 2 1) 1 (Module.mk "A".data [] [] [] []) =
      .error (newError (Parser.mk ["state 9x: Int".data] 2 1) msgInvalidStateName
        (goTrimSpace ((stateLineOf (Parser.mk ["state 9x: Int".data] 2 1)).take 2))) ∧
    moduleLoopF 1 (Parser.mk ["action 9go".data] 2 1) 1 (Module.mk "A".data [] [] [] []) =
      .error (newError (Parser.mk ["action 9go".data] 2 1) msgInvalidActionName "9go".data) ∧
    moduleLoopF 1 (Parser.mk ["view a-b".data] 2 1) 1 (Module.mk "A".data [] [] [] []) =
      .error (newError (Parser.mk ["view a-b".data] 2 1) msgInvalidViewName
        (goTrimSpace (goTrimPre (goTrimSpace
          (currentLine (Parser.mk ["view a-b".data] 2 1))) kwViewSp))) :=
  ⟨c5_invalid_identifier.1 0 (Parser.mk ["state 9x: Int".data] 2 1)
     (Module.mk "A".data [] [] [] []) 2 (by decide) (by decide) (by decide) (by decide),
   c5_invalid_identifier.2.1 0 (Parser.mk ["action 9go".data] 2 1)
     (Module.mk "A".data [] [] [] []) "9go".data [] (by decide) (by decide) (by decide) (by decide),
   c5_invalid_identifier.2.2 0 (Parser.mk ["view a-b".data] 2 1)
     (Module.mk "A".data [] [] [] []) (by decide) (by decide) (by decide)⟩


lemma templateLoop_depth_nonpos (rest : List GoStr) (ln col : Nat) (d : Int)
    (acc : List GoStr) (hd : d ≤ 0) :
    templateLoop rest ln col d acc = (rest, ln, col, d, acc) := by
  cases rest with
  | nil => rfl
  | cons l rs =>
    simp only [templateLoop]
    rw [if_pos hd]

lemma templateLoop_balanced :
    ∀ (i : Nat) (body : List GoStr) (ln col : Nat) (d : Int) (acc : List GoStr),
      i < body.length →
      (∀ j, j ≤ i → 0 < d + ((body.take j).map lineDelta).sum) →
      d + ((body.take (i + 1)).map lineDelta).sum = 0 →
      templateLoop body ln col d acc =
        (body.drop (i + 1), ln + (i + 1), 1, 0, acc ++ body.take i) := by
  intro i
  induction i with
  | zero =>
    intro body ln col d acc hlen hpos hz
    cases body with
    | nil => simp at hlen
    | cons l rs =>
      have hd : 0 < d := by simpa using hpos 0 (by omega)
      have hz1 : d + lineDelta l = 0 := by
        simpa using hz
      rw [lineDelta] at hz1
      simp only [templateLoop]
      rw [if_neg (by omega)]
      rw [show d + (l.count bOpen : Int) - (l.count bClose : Int) = 0 by omega]
      rw [if_neg (by omega)]
      rw [templateLoop_depth_nonpos rs (ln + 1) 1 0 acc (by omega)]
      simp
  | succ n ih =>
    intro body ln col d acc hlen hpos hz
    cases body with
    | nil => simp at hlen
    | cons l rs =>
      have hd : 0 < d := by simpa using hpos 0 (by omega)
      have hd1 : 0 < d + lineDelta l := by
        have := hpos 1 (by omega)
        simpa using this
      rw [lineDelta] at hd1
      simp only [templateLoop]
      rw [if_neg (by omega)]
      rw [if_pos (by omega : (0 : Int) < d + (l.count bOpen : Int) - (l.count bClose : Int))]
      rw [ih rs (ln + 1) 1 (d + (l.count bOpen : Int) - (l.count bClose : Int)) (acc ++ [l])
        (by simp at hlen; omega)
        (by
          intro j hj
          have := hpos (j + 1) (by omega)
          simp only [List.take_succ_cons, List.map_cons, List.sum_cons, lineDelta] at this
          omega)
        (by
          have := hz
          simp only [List.take_succ_cons, List.map_cons, List.sum_cons, lineDelta] at this
          omega)]
      rw [show ln + 1 + (n + 1) = ln + (n + 1 + 1) from by omega]
      simp [List.append_assoc]

/-- C2: for every template block whose running depth (starting at 1
after the opening line and adjusted per raw line by brace opens minus
closes) first reaches 0 on body line i, parseTemplate stores as the
template exactly the raw untrimmed lines strictly before line i, in
their original order; line i itself is consumed but not appended.  In
particular a line whose opens equal its closes keeps the depth unchanged
and is captured verbatim (the witness below is spec scenario 3). -/
theorem c2_template_capture (tl : GoStr) (body : List GoStr) (ln col : Nat)
    (m : Module) (i : Nat)
    (hsuf : goHasSuf (goTrimSpace tl) strBlockStart = true)
    (hlen : i < body.length)
    (hfirst : ∀ j, j ≤ i → 0 < specRunningDepth body j)
    (hzero : specRunningDepth body (i + 1) = 0) :
    parseTemplate (Parser.mk (tl :: body) ln col) m =
      .ok (Parser.mk (body.drop (i + 1)) (ln + 1 + (i + 1)) 1,
        Module.mk m.name m.state m.views m.actions (body.take i)) := by
  simp only [parseTemplate, currentLine, advance, List.headD_cons]
  rw [if_neg (by simp [hsuf])]
  simp only [templateLoop_balanced i body (ln + 1) 1 1 [] hlen
    (fun j hj => by simpa [specRunningDepth] using hfirst j hj)
    (by simpa [specRunningDepth] using hzero)]
  rw [if_neg (by omega)]
  simp

/-- Witness for C2: the single-line template body with balanced inner
braces is captured verbatim and the closing line is consumed. -/
theorem c2_template_capture_witness :
    parseTemplate (Parser.mk ["template \x7b".data, "<div>\x7bx\x7d</div>".data, "\x7d".data] 2 1)
        (Module.mk "X".data [] [] [] []) =
      .ok (Parser.mk [] 5 1,
        Module.mk "X".data [] [] [] ["<div>\x7bx\x7d</div>".data]) := by
  have h := c2_template_capture "template \x7b".data
    ["<div>\x7bx\x7d</div>".data, "\x7d".data] 2 1 (Module.mk "X".data [] [] [] []) 1
    (by decide) (by decide) (by decide) (by decide)
  simpa using h


lemma rest_ne_of_hasMore (p : Parser) (h : hasMoreLines p = true) : p.rest ≠ [] := by
  intro hr
  rw [hasMoreLines, hr] at h
  exact absurd h (by decide)

lemma extend_hasMore (p : Parser) (t : List GoStr) (hr : p.rest ≠ []) :
    hasMoreLines (extendP p t) = true := by
  cases hp : p.rest with
  | nil => exact absurd hp hr
  | cons l rs => simp [hasMoreLines, extendP, hp]

lemma extend_currentLine (p : Parser) (t : List GoStr) (hr : p.rest ≠ []) :
    currentLine (extendP p t) = currentLine p := by
  cases hp : p.rest with
  | nil => exact absurd hp hr
  | cons l rs => simp [currentLine, extendP, hp]

lemma extend_advance (p : Parser) (t : List GoStr) (hr : p.rest ≠ []) :
    advance (extendP p t) = extendP (advance p) t := by
  cases hp : p.rest with
  | nil => exact absurd hp hr
  | cons l rs => simp [advance, extendP, hp]

lemma templateLoop_extend (t : List GoStr) :
    ∀ (rest : List GoStr) (ln col : Nat) (d : Int) (acc : List GoStr)
      (rs2 : List GoStr) (ln2 col2 : Nat) (d2 : Int) (acc2 : List GoStr),
      templateLoop rest ln col d acc = (rs2, ln2, col2, d2, acc2) → d2 ≤ 0 →
      templateLoop (rest ++ t) ln col d acc = (rs2 ++ t, ln2, col2, d2, acc2) := by
  intro rest
  induction rest with
  | nil =>
    intro ln col d acc rs2 ln2 col2 d2 acc2 h hd2
    simp only [templateLoop] at h
    cases h
    simpa using templateLoop_depth_nonpos t ln col d acc hd2
  | cons l rs ih =>
    intro ln col d acc rs2 ln2 col2 d2 acc2 h hd2
    by_cases hd : d ≤ 0
    · rw [templateLoop_depth_nonpos _ _ _ _ _ hd] at h
      cases h
      exact templateLoop_depth_nonpos ((l :: rs) ++ t) ln col d acc hd
    · simp only [List.cons_append, templateLoop] at h ⊢
      rw [if_neg hd] at h ⊢
      exact ih _ _ _ _ _ _ _ _ _ h hd2

lemma parseModuleDeclaration_extend (p : Parser) (t : List GoStr) (p2 : Parser)
    (name : GoStr) (hr : p.rest ≠ [])
    (h : parseModuleDeclaration p = .ok (p2, name)) :
    parseModuleDeclaration (extendP p t) = .ok (extendP p2 t, name) := by
  have hm : hasMoreLines p = true := by
    cases hp : p.rest with
    | nil => exact absurd hp hr
    | cons l rs => simp [hasMoreLines, hp]
  have hm2 := extend_hasMore p t hr
  have hcl := extend_currentLine p t hr
  by_cases h1 : goHasPre (goTrimSpace (currentLine p)) kwModuleSp = true ∧
      goHasSuf (goTrimSpace (currentLine p)) sufBrace = true
  · by_cases h2 : headerName (goTrimSpace (currentLine p)) = []
    · rw [decl_emptyName p hm h1 h2] at h
      exact absurd h (by simp)
    · by_cases hv : isValidModuleName (headerName (goTrimSpace (currentLine p))) = false
      · rw [decl_invalidName p hm h1 h2 hv] at h
        exact absurd h (by simp)
      · rw [decl_ok p hm h1 h2 hv] at h
        simp only [Except.ok.injEq, Prod.mk.injEq] at h
        rw [decl_ok (extendP p t) hm2 (by rw [hcl]; exact h1) (by rw [hcl]; exact h2)
          (by rw [hcl]; exact hv)]
        rw [hcl, extend_advance p t hr, h.1, h.2]
  · rw [decl_noHeader p hm h1] at h
    exact absurd h (by simp)

lemma parseState_extend (p : Parser) (t : List GoStr) (m : Module) (p2 : Parser)
    (m2 : Module) (hr : p.rest ≠ [])
    (h : parseState p m = .ok (p2, m2)) :
    parseState (extendP p t) m = .ok (extendP p2 t, m2) := by
  have hsl : stateLineOf (extendP p t) = stateLineOf p := by
    rw [stateLineOf, stateLineOf, extend_currentLine p t hr]
  cases hci : goIndexChar ':' (stateLineOf p) with
  | none =>
    rw [parseState_noColon p m hci] at h
    exact absurd h (by simp)
  | some ci =>
    by_cases hv : isValidIdentifier (goTrimSpace ((stateLineOf p).take ci)) = false
    · rw [parseState_badName p m ci hci hv] at h
      exact absurd h (by simp)
    · cases he : goIndexChar '=' (goTrimSpace ((stateLineOf p).drop (ci + 1))) with
      | some ei =>
        rw [parseState_someEq p m ci ei hci hv he] at h
        by_cases ht :
            goTrimSpace ((goTrimSpace ((stateLineOf p).drop (ci + 1))).take ei) = []
        · rw [if_pos ht] at h
          exact absurd h (by simp)
        · rw [if_neg ht] at h
          simp only [Except.ok.injEq, Prod.mk.injEq] at h
          rw [parseState_someEq (extendP p t) m ci ei (by rw [hsl]; exact hci)
            (by rw [hsl]; exact hv) (by rw [hsl]; exact he)]
          rw [hsl, if_neg ht, extend_advance p t hr, h.1, h.2]
      | none =>
        rw [parseState_noEq p m ci hci hv he] at h
        by_cases ht : goTrimSpace ((stateLineOf p).drop (ci + 1)) = []
        · rw [if_pos ht] at h
          exact absurd h (by simp)
        · rw [if_neg ht] at h
          simp only [Except.ok.injEq, Prod.mk.injEq] at h
          rw [parseState_noEq (extendP p t) m ci (by rw [hsl]; exact hci)
            (by rw [hsl]; exact hv) (by rw [hsl]; exact he)]
          rw [hsl, if_neg ht, extend_advance p t hr, h.1, h.2]

lemma parseAction_extend (p : Parser) (t : List GoStr) (m : Module) (p2 : Parser)
    (m2 : Module) (hr : p.rest ≠ [])
    (h : parseAction p m = .ok (p2, m2)) :
    parseAction (extendP p t) m = .ok (extendP p2 t, m2) := by
  have hcl := extend_currentLine p t hr
  simp only [parseAction, hcl] at h ⊢
  cases hf : goFields (goTrimSpace (goTrimPre (goTrimSpace (currentLine p)) kwActionSp)) with
  | nil =>
    simp only [hf] at h
    exact absurd h (by simp)
  | cons nm rest2 =>
    simp only [hf] at h ⊢
    by_cases hv : isValidIdentifier nm = false
    · rw [if_pos hv] at h
      exact absurd h (by simp)
    · rw [if_neg hv] at h ⊢
      simp only [Except.ok.injEq, Prod.mk.injEq] at h
      rw [extend_advance p t hr, h.1, h.2]

lemma parseView_extend (p : Parser) (t : List GoStr) (m : Module) (p2 : Parser)
    (m2 : Module) (hr : p.rest ≠ [])
    (h : parseView p m = .ok (p2, m2)) :
    parseView (extendP p t) m = .ok (extendP p2 t, m2) := by
  have hcl := extend_currentLine p t hr
  simp only [parseView, hcl] at h ⊢
  by_cases hnm : goTrimSpace (goTrimPre (goTrimSpace (currentLine p)) kwViewSp) = []
  · rw [if_pos hnm] at h
    exact absurd h (by simp)
  · rw [if_neg hnm] at h ⊢
    by_cases hv : isValidIdentifier (goTrimSpace (goTrimPre (goTrimSpace (currentLine p)) kwViewSp)) = false
    · rw [if_pos hv] at h
      exact absurd h (by simp)
    · rw [if_neg hv] at h ⊢
      simp only [Except.ok.injEq, Prod.mk.injEq] at h
      rw [extend_advance p t hr, h.1, h.2]

lemma parseTemplate_extend (p : Parser) (t : List GoStr) (m : Module) (p2 : Parser)
    (m2 : Module) (hr : p.rest ≠ [])
    (h : parseTemplate p m = .ok (p2, m2)) :
    parseTemplate (extendP p t) m = .ok (extendP p2 t, m2) := by
  have hcl := extend_currentLine p t hr
  simp only [parseTemplate, hcl] at h ⊢
  by_cases hs : goHasSuf (goTrimSpace (currentLine p)) strBlockStart = false
  · rw [if_pos hs] at h
    exact absurd h (by simp)
  · rw [if_neg hs] at h ⊢
    rcases htl : templateLoop (advance p).rest (advance p).line (advance p).column 1 []
      with ⟨rs2, ln2, col2, d2, tls⟩
    simp only [htl] at h
    by_cases hd2 : (0 : Int) < d2
    · rw [if_pos hd2] at h
      exact absurd h (by simp)
    · rw [if_neg hd2] at h
      simp only [Except.ok.injEq, Prod.mk.injEq] at h
      rw [extend_advance p t hr]
      simp only [extendP]
      rw [templateLoop_extend t (advance p).rest (advance p).line (advance p).column 1 []
        rs2 ln2 col2 d2 tls htl (by omega)]
      rw [if_neg hd2]
      rw [← h.1, ← h.2]

lemma parseModuleElement_extend (p : Parser) (t : List GoStr) (m : Module)
    (p2 : Parser) (m2 : Module) (hr : p.rest ≠ [])
    (h : parseModuleElement p m = .ok (p2, m2)) :
    parseModuleElement (extendP p t) m = .ok (extendP p2 t, m2) := by
  have hcl := extend_currentLine p t hr
  simp only [parseModuleElement, hcl] at h ⊢
  by_cases hb : goTrimSpace (currentLine p) = [] ∨
      goHasPre (goTrimSpace (currentLine p)) strCommentPre = true
  · rw [if_pos hb] at h ⊢
    simp only [Except.ok.injEq, Prod.mk.injEq] at h
    rw [extend_advance p t hr, h.1, h.2]
  · rw [if_neg hb] at h ⊢
    by_cases hbe : goTrimSpace (currentLine p) = strBlockEnd
    · rw [if_pos hbe] at h ⊢
      simp only [Except.ok.injEq, Prod.mk.injEq] at h
      rw [extend_advance p t hr, h.1, h.2]
    · rw [if_neg hbe] at h ⊢
      by_cases hst : goHasPre (goTrimSpace (currentLine p)) kwStateSp = true
      · rw [if_pos hst] at h ⊢
        exact parseState_extend p t m p2 m2 hr h
      · rw [if_neg hst] at h ⊢
        by_cases hac : goHasPre (goTrimSpace (currentLine p)) kwActionSp = true
        · rw [if_pos hac] at h ⊢
          exact parseAction_extend p t m p2 m2 hr h
        · rw [if_neg hac] at h ⊢
          by_cases hvw : goHasPre (goTrimSpace (currentLine p)) kwViewSp = true
          · rw [if_pos hvw] at h ⊢
            exact parseView_extend p t m p2 m2 hr h
          · rw [if_neg hvw] at h ⊢
            by_cases htp : goHasPre (goTrimSpace (currentLine p)) kwTemplateBrace = true
            · rw [if_pos htp] at h ⊢
              exact parseTemplate_extend p t m p2 m2 hr h
            · rw [if_neg htp] at h
              exact absurd h (by simp)

lemma moduleLoopF_extend (t : List GoStr) :
    ∀ (fuel fuel2 : Nat) (p : Parser) (m : Module) (p2 : Parser) (d2 : Int) (m2 : Module),
      moduleLoopF fuel p 1 m = .ok (p2, d2, m2) → fuel ≤ fuel2 →
      moduleLoopF fuel2 (extendP p t) 1 m = .ok (extendP p2 t, d2, m2) := by
  intro fuel
  induction fuel with
  | zero =>
    intro fuel2 p m p2 d2 m2 h hle
    simp only [moduleLoopF] at h
    rw [if_pos (by norm_num : (0 : Int) < 1)] at h
    exact absurd h (by simp)
  | succ n ih =>
    intro fuel2 p m p2 d2 m2 h hle
    obtain ⟨n2, rfl⟩ : ∃ n2, fuel2 = n2 + 1 := ⟨fuel2 - 1, by omega⟩
    simp only [moduleLoopF] at h ⊢
    by_cases hm : hasMoreLines p = true
    · have hr : p.rest ≠ [] := rest_ne_of_hasMore p hm
      have hme := extend_hasMore p t hr
      have hcl := extend_currentLine p t hr
      rw [if_pos ⟨hm, by norm_num⟩] at h
      rw [if_pos ⟨hme, by norm_num⟩, hcl]
      by_cases hbe : goTrimSpace (currentLine p) = strBlockEnd ∧ (1 : Int) - 1 = 0
      · rw [if_pos hbe] at h
        rw [if_pos hbe]
        simp only [Except.ok.injEq, Prod.mk.injEq] at h
        rw [h.1, ← h.2.1, ← h.2.2]
      · rw [if_neg hbe] at h
        rw [if_neg hbe]
        have hne : ¬ goTrimSpace (currentLine p) = strBlockEnd :=
          fun hc => hbe ⟨hc, by norm_num⟩
        rw [if_neg hne] at h
        rw [if_neg hne]
        cases helem : parseModuleElement p m with
        | error e =>
          simp only [helem] at h
          exact absurd h (by simp)
        | ok pr =>
          obtain ⟨p3, m3⟩ := pr
          simp only [helem] at h
          have hext := parseModuleElement_extend p t m p3 m3 hr helem
          simp only [hext]
          exact ih n2 p3 m3 p2 d2 m2 h (by omega)
    · rw [if_neg (fun hc => hm hc.1), if_pos (by norm_num : (0 : Int) < 1)] at h
      exact absurd h (by simp)

/-- C10: lines after the closing brace of the module are ignored: if
parse accepts a line sequence s (so the body loop exits at the first
top-level closing brace), then parse on s followed by any further lines,
malformed ones included, returns exactly the same Module. -/
theorem c10_suffix_ignored (s t : List GoStr) (m : Module)
    (h : parse s = .ok m) : parse (s ++ t) = .ok m := by
  have hs : ¬ s.length = 0 := by
    intro h0
    rw [List.length_eq_zero.mp h0] at h
    simp [parse] at h
  have hst : ¬ (s ++ t).length = 0 := by
    simp only [List.length_append]
    omega
  simp only [parse, if_neg hs] at h
  simp only [parse, if_neg hst]
  simp only [parseModule] at h ⊢
  have hr : (Parser.mk s 1 1).rest ≠ [] := by
    intro hnil
    have hs0 : s = [] := hnil
    rw [hs0] at hs
    exact hs rfl
  have hextp : Parser.mk (s ++ t) 1 1 = extendP (Parser.mk s 1 1) t := rfl
  rw [hextp]
  cases hdecl : parseModuleDeclaration (Parser.mk s 1 1) with
  | error e =>
    simp only [hdecl] at h
    exact absurd h (by simp)
  | ok pr =>
    obtain ⟨p1, name⟩ := pr
    simp only [hdecl] at h
    have hdecl2 := parseModuleDeclaration_extend (Parser.mk s 1 1) t p1 name hr hdecl
    simp only [hdecl2]
    cases hml : moduleLoopF p1.rest.length p1 1 (Module.mk name [] [] [] []) with
    | error e =>
      simp only [hml] at h
      exact absurd h (by simp)
    | ok r =>
      obtain ⟨p2, d2, m2⟩ := r
      simp only [hml] at h
      simp only [Except.ok.injEq] at h
      have hml2 := moduleLoopF_extend t p1.rest.length ((extendP p1 t).rest.length) p1
        (Module.mk name [] [] [] []) p2 d2 m2 hml
        (by simp only [extendP, List.length_append]; omega)
      simp only [hml2]
      rw [h]

/-- Witness for C10: appending a malformed line after the closing brace
leaves the parsed Module unchanged. -/
theorem c10_suffix_ignored_witness :
    parse (["module X \x7b".data, "\x7d".data] ++ ["garbage !!".data]) =
      .ok (Module.mk "X".data [] [] [] []) :=
  c10_suffix_ignored ["module X \x7b".data, "\x7d".data] ["garbage !!".data]
    (Module.mk "X".data [] [] [] []) (by decide)


lemma advance_length (p : Parser) (hm : hasMoreLines p = true) :
    (advance p).rest.length < p.rest.length := by
  cases hp : p.rest with
  | nil =>
    rw [hasMoreLines, hp] at hm
    exact absurd hm (by decide)
  | cons l rs => simp [advance, hp]

lemma templateLoop_rest_le :
    ∀ (rest : List GoStr) (ln col : Nat) (d : Int) (acc : List GoStr),
      (templateLoop rest ln col d acc).1.length ≤ rest.length := by
  intro rest
  induction rest with
  | nil =>
    intro ln col d acc
    simp [templateLoop]
  | cons l rs ih =>
    intro ln col d acc
    simp only [templateLoop]
    by_cases hd : d ≤ 0
    · rw [if_pos hd]
    · rw [if_neg hd]
      calc (templateLoop rs (ln + 1) 1
            (d + (l.count bOpen : Int) - (l.count bClose : Int))
            (if 0 < d + (l.count bOpen : Int) - (l.count bClose : Int)
             then acc ++ [l] else acc)).1.length
          ≤ rs.length := ih _ _ _ _
        _ ≤ (l :: rs).length := by simp

lemma parseState_rest (p : Parser) (m : Module) (p2 : Parser) (m2 : Module)
    (h : parseState p m = .ok (p2, m2)) : p2 = advance p := by
  simp only [parseState] at h
  split at h
  · exact absurd h (by simp)
  · split at h
    · exact absurd h (by simp)
    · split at h
      · exact absurd h (by simp)
      · simp only [Except.ok.injEq, Prod.mk.injEq] at h
        rw [← h.1]

lemma parseAction_rest (p : Parser) (m : Module) (p2 : Parser) (m2 : Module)
    (h : parseAction p m = .ok (p2, m2)) : p2 = advance p := by
  simp only [parseAction] at h
  split at h
  · exact absurd h (by simp)
  · split at h
    · exact absurd h (by simp)
    · simp only [Except.ok.injEq, Prod.mk.injEq] at h
      rw [← h.1]

lemma parseView_rest (p : Parser) (m : Module) (p2 : Parser) (m2 : Module)
    (h : parseView p m = .ok (p2, m2)) : p2 = advance p := by
  simp only [parseView] at h
  split at h
  · exact absurd h (by simp)
  · split at h
    · exact absurd h (by simp)
    · simp only [Except.ok.injEq, Prod.mk.injEq] at h
      rw [← h.1]

lemma parseTemplate_rest (p : Parser) (m : Module) (p2 : Parser) (m2 : Module)
    (h : parseTemplate p m = .ok (p2, m2)) :
    p2.rest.length ≤ (advance p).rest.length := by
  simp only [parseTemplate] at h
  split at h
  · exact absurd h (by simp)
  · rcases htl : templateLoop (advance p).rest (advance p).line (advance p).column 1 []
      with ⟨rs2, ln2, col2, d2, tls⟩
    simp only [htl] at h
    split at h
    · exact absurd h (by simp)
    · simp only [Except.ok.injEq, Prod.mk.injEq] at h
      rw [← h.1]
      have hle := templateLoop_rest_le (advance p).rest (advance p).line (advance p).column 1 []
      rw [htl] at hle
      simpa using hle

lemma parseModuleElement_shrinks (p : Parser) (m : Module) (p2 : Parser) (m2 : Module)
    (hm : hasMoreLines p = true)
    (h : parseModuleElement p m = .ok (p2, m2)) : p2.rest.length < p.rest.length := by
  simp only [parseModuleElement] at h
  split at h
  · simp only [Except.ok.injEq, Prod.mk.injEq] at h
    rw [← h.1]
    exact advance_length p hm
  · split at h
    · simp only [Except.ok.injEq, Prod.mk.injEq] at h
      rw [← h.1]
      exact advance_length p hm
    · split at h
      · rw [parseState_rest p m p2 m2 h]
        exact advance_length p hm
      · split at h
        · rw [parseAction_rest p m p2 m2 h]
          exact advance_length p hm
        · split at h
          · rw [parseView_rest p m p2 m2 h]
            exact advance_length p hm
          · split at h
            · exact lt_of_le_of_lt (parseTemplate_rest p m p2 m2 h) (advance_length p hm)
            · exact absurd h (by simp)

/-- moduleLoopF is independent of the fuel once the fuel is at least the
number of remaining lines, which justifies the fuel parseModule passes:
the fuel never runs out before the input does. -/
lemma moduleLoopF_fuel :
    ∀ (fuel fuel2 : Nat) (p : Parser) (d : Int) (m : Module),
      p.rest.length ≤ fuel → p.rest.length ≤ fuel2 →
      moduleLoopF fuel p d m = moduleLoopF fuel2 p d m := by
  intro fuel
  induction fuel with
  | zero =>
    intro fuel2 p d m h1 h2
    have hp : p.rest = [] := List.length_eq_zero.mp (by omega)
    have hm : hasMoreLines p = false := by rw [hasMoreLines, hp]; rfl
    cases fuel2 with
    | zero => rfl
    | succ n2 =>
      simp only [moduleLoopF]
      rw [if_neg (show ¬ (hasMoreLines p = true ∧ 0 < d) from
        fun hc => by rw [hm] at hc; exact absurd hc.1 (by decide))]
  | succ n ih =>
    intro fuel2 p d m h1 h2
    by_cases hm : hasMoreLines p = true
    · have hr : p.rest ≠ [] := rest_ne_of_hasMore p hm
      have hlen1 : 1 ≤ p.rest.length := by
        cases hp : p.rest with
        | nil => exact absurd hp hr
        | cons l rs => simp [hp]
      obtain ⟨n2, rfl⟩ : ∃ n2, fuel2 = n2 + 1 := ⟨fuel2 - 1, by omega⟩
      simp only [moduleLoopF]
      by_cases hd : (0 : Int) < d
      · by_cases hbe : goTrimSpace (currentLine p) = strBlockEnd ∧ d - 1 = 0
        · conv_lhs => rw [if_pos ⟨hm, hd⟩, if_pos hbe]
          conv_rhs => rw [if_pos ⟨hm, hd⟩, if_pos hbe]
        · conv_lhs => rw [if_pos ⟨hm, hd⟩, if_neg hbe]
          conv_rhs => rw [if_pos ⟨hm, hd⟩, if_neg hbe]
          cases helem : parseModuleElement p m with
          | error e => simp only [helem]
          | ok pr =>
            obtain ⟨p3, m3⟩ := pr
            simp only [helem]
            have hsh := parseModuleElement_shrinks p m p3 m3 hm helem
            exact ih n2 p3 _ m3 (by omega) (by omega)
      · conv_lhs => rw [if_neg (show ¬ (hasMoreLines p = true ∧ 0 < d) from fun hc => hd hc.2)]
        conv_rhs => rw [if_neg (show ¬ (hasMoreLines p = true ∧ 0 < d) from fun hc => hd hc.2)]
    · cases fuel2 with
      | zero =>
        simp only [moduleLoopF]
        rw [if_neg (show ¬ (hasMoreLines p = true ∧ 0 < d) from fun hc => hm hc.1)]
      | succ n2 =>
        simp only [moduleLoopF]
        conv_lhs => rw [if_neg (show ¬ (hasMoreLines p = true ∧ 0 < d) from
          fun hc => hm hc.1)]
        conv_rhs => rw [if_neg (show ¬ (hasMoreLines p = true ∧ 0 < d) from
          fun hc => hm hc.1)]

end Nexus
